import Mathlib

set_option maxRecDepth 100000

/-!
Shallow embedding of `src/memory_allocator.h` (maderix/memory-allocator).

The embedding has three layers, each translated from the source:

* `AllocStats` and the thread-local small-block cache
  (`ThreadLocalSmallCache::allocateSmall` / `freeSmall`), modelled with
  abstract block identifiers for the heap chunks obtained from
  `::operator new` (each chunk is a fresh id; the id plays the role of
  the user pointer).  All four statistics counters are `std::atomic<size_t>`,
  so additions and subtractions are taken modulo 2^64 (`wadd` / `wsub`).

* a byte-level model of `Arena` (`ByteMem` / `ByteArena`): the arena's
  contiguous region is a byte function `Nat → Nat`, block headers and
  footers are read and written field by field at the x86-64 LP64 offsets
  produced by g++/clang for the source structs
  (`sizeof(Arena::BlockHeader) = 32` with `magic` at +0, `totalSize` at +8,
  `userSize` at +16, `isFree` at +24; `sizeof(Arena::BlockFooter) = 24`
  with `magic` at +0, `totalSize` at +8, `isFree` at +16;
  `sizeof(SmallBlockHeader) = 16`; `alignof(std::max_align_t) = 16`).
  The region starts at address `BASE` (16-aligned, nonzero so that the
  null pointer 0 stays distinct); the free list is threaded through the
  payloads exactly as in the source, and list walks carry explicit fuel.

* the dispatcher `FancyPerThreadAllocator::deallocate` (`dispatchFree`),
  which reads the 4 bytes that precede the user pointer and routes the
  free on whether they equal `Arena::MAGIC`.
-/

/-- Machine word modulus: the counters are `std::atomic<size_t>` on LP64. -/
def WORD : Nat := 2 ^ 64

/-- Wrapping addition on `size_t` values (`fetch_add`). -/
def wadd (a b : Nat) : Nat := (a + b) % WORD

/-- Wrapping subtraction on `size_t` values (`fetch_sub`): unsigned underflow
wraps modulo 2^64. -/
def wsub (a b : Nat) : Nat := (a + (WORD - b % WORD)) % WORD

/-- Record of the four counters of `AllocStats` (values of the atomics). -/
structure AllocStats where
  totalAllocCalls : Nat
  totalFreeCalls : Nat
  currentUsedBytes : Nat
  peakUsedBytes : Nat
deriving DecidableEq, Repr

/-- The CAS retry loop that raises `peakUsedBytes` to `currentUsedBytes`
when the latter is larger (sequential effect of the
`compare_exchange_weak` loop in `allocateSmall` and `Arena::allocate`). -/
def peakUpdate (s : AllocStats) : AllocStats :=
  if s.peakUsedBytes < s.currentUsedBytes then
    { s with peakUsedBytes := s.currentUsedBytes }
  else s

/-- Source constant `SMALL_BIN_COUNT`. -/
def SMALL_BIN_COUNT : Nat := 4

/-- Source table `SMALL_BIN_SIZE[] = 32, 64, 128, 256`. -/
def SMALL_BIN_SIZE : List Nat := [32, 64, 128, 256]

/-- Loop of `ThreadLocalSmallCache::findBin`: the first index whose bin size
admits the request, `none` for the C++ return value `-1`. -/
def findBin (size : Nat) : Option Nat :=
  (List.range SMALL_BIN_COUNT).find? (fun i => size ≤ SMALL_BIN_SIZE.getD i 0)

/-- Header of a small block: `SmallBlockHeader` with fields
`binIndex` and `userSize`. -/
structure SmallHdr where
  binIndex : Nat
  userSize : Nat
deriving DecidableEq, Repr

/-- State of one `ThreadLocalSmallCache` together with the chunks it obtained
from the platform.  `heap` maps a block identifier (the abstract address of
the chunk) to its `SmallBlockHeader`; `bins` is `freeList_`, one LIFO list of
identifiers per bin; `nextId` produces fresh identifiers for chunks returned
by `::operator new`. -/
structure SmallState where
  heap : List (Nat × SmallHdr)
  bins : List (List Nat)
  nextId : Nat
deriving DecidableEq, Repr

/-- Empty small cache (constructor of `ThreadLocalSmallCache`). -/
def SmallState.empty : SmallState :=
  { heap := [], bins := [[], [], [], []], nextId := 0 }

/-- Write `userSize = r` into the header of block `j` (the pop path of
`allocateSmall` assigns only `hdr.userSize`; `binIndex` is untouched). -/
def setUserSize (l : List (Nat × SmallHdr)) (j r : Nat) : List (Nat × SmallHdr) :=
  l.map (fun p => if p.1 = j then (p.1, { p.2 with userSize := r }) else p)

/-- Translation of `ThreadLocalSmallCache::allocateSmall`.  Returns the user
pointer (block identifier), the new cache state and the new statistics.
A popped block keeps its header apart from `userSize`; a fresh chunk gets
header `(binIndex = bin, userSize = reqSize)` and is the only path that
touches the statistics. -/
def allocateSmall (reqSize : Nat) (st : SmallState) (stats : AllocStats) :
    Option Nat × SmallState × AllocStats :=
  match findBin reqSize with
  | none => (none, st, stats)
  | some bin =>
    match st.bins.getD bin [] with
    | blk :: rest =>
        (some blk,
         { st with heap := setUserSize st.heap blk reqSize, bins := st.bins.set bin rest },
         stats)
    | [] =>
        let totalSz := 16 + SMALL_BIN_SIZE.getD bin 0
        let id := st.nextId
        let stats1 := { stats with
          totalAllocCalls := wadd stats.totalAllocCalls 1,
          currentUsedBytes := wadd stats.currentUsedBytes totalSz }
        (some id,
         { st with heap := (id, ⟨bin, reqSize⟩) :: st.heap, nextId := id + 1 },
         peakUpdate stats1)

/-- Translation of `ThreadLocalSmallCache::freeSmall`.  The header is read
from the block preceding the user pointer; an out-of-range `binIndex` returns
before any statistics update; otherwise one free call is counted, the chunk
size is subtracted from current used, and the block is pushed onto the front
of its bin.  The header itself is never written (the C++ code assigns only
the free-list link `fb->next`, which this model keeps in `bins`). -/
def freeSmall (ptr : Nat) (st : SmallState) (stats : AllocStats) :
    SmallState × AllocStats :=
  match st.heap.lookup ptr with
  | none => (st, stats)
  | some hdr =>
    if hdr.binIndex < SMALL_BIN_COUNT then
      let totalSz := 16 + SMALL_BIN_SIZE.getD hdr.binIndex 0
      let stats1 := { stats with
        totalFreeCalls := wadd stats.totalFreeCalls 1,
        currentUsedBytes := wsub stats.currentUsedBytes totalSz }
      ({ st with bins := st.bins.set hdr.binIndex (ptr :: st.bins.getD hdr.binIndex []) },
       stats1)
    else (st, stats)

/-- Zeroed statistics (initial values of the atomics). -/
def AllocStats.zero : AllocStats :=
  { totalAllocCalls := 0, totalFreeCalls := 0, currentUsedBytes := 0, peakUsedBytes := 0 }

/-- Base address of the arena region (the value of `memory_`): 16-aligned, as
`::operator new` guarantees for this size, and nonzero so that the null
pointer 0 stays distinct from every address in the region. -/
def BASE : Nat := 4096

/-- Source constant `Arena::MAGIC = 0xCAFEBABE`. -/
def MAGIC : Nat := 0xCAFEBABE

/-- Byte size of `Arena::BlockHeader` on x86-64 LP64 (fields `magic` at +0,
`totalSize` at +8, `userSize` at +16, `isFree` at +24, tail padding to 32). -/
def HDR : Nat := 32

/-- Byte size of `Arena::BlockFooter` on x86-64 LP64 (fields `magic` at +0,
`totalSize` at +8, `isFree` at +16, tail padding to 24). -/
def FTR : Nat := 24

/-- Byte size of `Arena::FreeBlock` (header plus the `next` pointer at +32). -/
def FREEBLK : Nat := 40

/-- Source expression `sizeof(BlockHeader) + sizeof(BlockFooter)`. -/
def OVERHEAD : Nat := HDR + FTR

/-- Value of `alignof(std::max_align_t)` on x86-64. -/
def MAXALIGN : Nat := 16

/-- Store one byte. -/
def store8 (m : Nat → Nat) (a v : Nat) : Nat → Nat :=
  fun x => if x = a then v % 256 else m x

/-- Store a 32-bit value little-endian. -/
def store32 (m : Nat → Nat) (a v : Nat) : Nat → Nat :=
  store8 (store8 (store8 (store8 m a v) (a + 1) (v / 2 ^ 8)) (a + 2) (v / 2 ^ 16)) (a + 3)
    (v / 2 ^ 24)

/-- Store a 64-bit value little-endian. -/
def store64 (m : Nat → Nat) (a v : Nat) : Nat → Nat :=
  store32 (store32 m a v) (a + 4) (v / 2 ^ 32)

/-- Load a 32-bit value little-endian (the dispatcher's `*(uint32_t*)p`). -/
def load32 (m : Nat → Nat) (a : Nat) : Nat :=
  m a + 2 ^ 8 * m (a + 1) + 2 ^ 16 * m (a + 2) + 2 ^ 24 * m (a + 3)

/-- Load a 64-bit value little-endian. -/
def load64 (m : Nat → Nat) (a : Nat) : Nat :=
  load32 m a + 2 ^ 32 * load32 m (a + 4)

/-- Read of `hdr->magic` at header address `h`. -/
def hdrMagic (m : Nat → Nat) (h : Nat) : Nat := load32 m h

/-- Read of `hdr->totalSize`. -/
def hdrTotal (m : Nat → Nat) (h : Nat) : Nat := load64 m (h + 8)

/-- Read of `hdr->userSize`. -/
def hdrUser (m : Nat → Nat) (h : Nat) : Nat := load64 m (h + 16)

/-- Read of the byte backing `hdr->isFree` (true iff nonzero). -/
def hdrFreeByte (m : Nat → Nat) (h : Nat) : Nat := m (h + 24)

/-- Read of `FreeBlock::next` (stored in the payload, at header + 32). -/
def nextPtr (m : Nat → Nat) (h : Nat) : Nat := load64 m (h + HDR)

/-- Read of `foot->magic` at footer address `f`. -/
def ftrMagic (m : Nat → Nat) (f : Nat) : Nat := load32 m f

/-- Read of `foot->totalSize`. -/
def ftrTotal (m : Nat → Nat) (f : Nat) : Nat := load64 m (f + 8)

/-- Read of the byte backing `foot->isFree`. -/
def ftrFreeByte (m : Nat → Nat) (f : Nat) : Nat := m (f + 16)

/-- Write the four fields of a `BlockHeader` at address `h`. -/
def writeHdr (m : Nat → Nat) (h magic total user : Nat) (isFree : Bool) : Nat → Nat :=
  store8 (store64 (store64 (store32 m h magic) (h + 8) total) (h + 16) user) (h + 24)
    (if isFree then 1 else 0)

/-- Write the three fields of a `BlockFooter` at address `f`. -/
def writeFtr (m : Nat → Nat) (f magic total : Nat) (isFree : Bool) : Nat → Nat :=
  store8 (store64 (store32 m f magic) (f + 8) total) (f + 16) (if isFree then 1 else 0)

/-- Arena state: region size, region bytes, `firstFree_` (0 encodes the null
pointer) and the atomic `usedBytes_`. -/
structure ByteArena where
  size : Nat
  mem : Nat → Nat
  firstFree : Nat
  usedBytes : Nat

/-- Constructor `Arena::Arena(arenaSize)`: `memset` to zero, one spanning free
block with header, null `next` link, and footer at the end of the region. -/
def arenaInit (size : Nat) : ByteArena :=
  let m0 : Nat → Nat := fun _ => 0
  let m1 := writeHdr m0 BASE MAGIC size 0 true
  let m2 := store64 m1 (BASE + HDR) 0
  let m3 := writeFtr m2 (BASE + size - FTR) MAGIC size true
  { size := size, mem := m3, firstFree := BASE, usedBytes := 0 }

/-- Adjustment performed by `std::align` for a power-of-two alignment: the
smallest multiple of `al` that is not below `a`. -/
def alignUp (a al : Nat) : Nat := (a + al - 1) / al * al

/-- First-fit walk of `Arena::allocate`: follows `next` links from `cur`
(with `prev` tracked for unlinking), returning `(prev, cur, padding)` for the
first free block whose size admits `reqSize + overhead` and whose payload
still holds `reqSize` bytes after aligning.  `fuel` bounds the walk; the
caller passes more fuel than any list in the region can have nodes. -/
def fitWalk (m : Nat → Nat) (reqSize align : Nat) :
    Nat → Nat → Nat → Option (Nat × Nat × Nat)
  | 0, _, _ => none
  | _, _, 0 => none
  | fuel + 1, prev, cur =>
    let total := hdrTotal m cur
    if hdrFreeByte m cur ≠ 0 ∧ reqSize + OVERHEAD ≤ total then
      let userArea := cur + HDR
      let padding := alignUp userArea align - userArea
      if padding + reqSize ≤ total - OVERHEAD ∧ OVERHEAD + padding + reqSize ≤ total then
        some (prev, cur, padding)
      else fitWalk m reqSize align fuel cur (nextPtr m cur)
    else fitWalk m reqSize align fuel cur (nextPtr m cur)

/-- Translation of `Arena::allocate(reqSize, alignment, stats)`.  Counts one
allocation call up front, walks the free list first-fit, unlinks the chosen
block, splits it when the leftover admits `sizeof(FreeBlock) + overhead`,
marks the block allocated in header and footer, adds `needed` to `usedBytes`
and to current used with the peak CAS loop, and returns
`start + sizeof(BlockHeader) + padding`.  On a failed walk it returns null
with the arena untouched. -/
def arenaAllocate (req align : Nat) (ba : ByteArena) (stats : AllocStats) :
    Option Nat × ByteArena × AllocStats :=
  let stats0 := { stats with totalAllocCalls := wadd stats.totalAllocCalls 1 }
  match fitWalk ba.mem req align (ba.size + 1) 0 ba.firstFree with
  | none => (none, ba, stats0)
  | some (prev, cur, padding) =>
    let total := hdrTotal ba.mem cur
    let needed := OVERHEAD + padding + req
    let curNext := nextPtr ba.mem cur
    let m1 := if prev = 0 then ba.mem else store64 ba.mem (prev + HDR) curNext
    let ff1 := if prev = 0 then curNext else ba.firstFree
    let leftover := total - needed
    if FREEBLK + OVERHEAD ≤ leftover then
      let la := cur + needed
      let m2 := writeHdr m1 la MAGIC leftover 0 true
      let m3 := store64 m2 (la + HDR) ff1
      let m4 := writeFtr m3 (la + leftover - FTR) MAGIC leftover true
      let m5 := store64 (store64 (store8 m4 (cur + 24) 0) (cur + 16) req) (cur + 8) needed
      let m6 := writeFtr m5 (cur + needed - FTR) MAGIC needed false
      let stats1 := peakUpdate
        { stats0 with currentUsedBytes := wadd stats0.currentUsedBytes needed }
      (some (cur + HDR + padding),
       { ba with mem := m6, firstFree := la, usedBytes := wadd ba.usedBytes needed },
       stats1)
    else
      let m5 := store64 (store64 (store8 m1 (cur + 24) 0) (cur + 16) req) (cur + 8) total
      let m6 := writeFtr m5 (cur + total - FTR) MAGIC total false
      let stats1 := peakUpdate
        { stats0 with currentUsedBytes := wadd stats0.currentUsedBytes total }
      (some (cur + HDR + padding),
       { ba with mem := m6, firstFree := ff1, usedBytes := wadd ba.usedBytes total },
       stats1)

/-- Walk of `Arena::removeFreeBlock` looking for the node at address
`target`; returns the predecessor (0 when `target` is the list head). -/
def removeWalk (m : Nat → Nat) (target : Nat) : Nat → Nat → Nat → Option Nat
  | 0, _, _ => none
  | _, _, 0 => none
  | fuel + 1, prev, cur =>
    if cur = target then some prev
    else removeWalk m target fuel cur (nextPtr m cur)

/-- Translation of `Arena::removeFreeBlock`: unlink the node at `target`
from the free list and null its `next` field. -/
def removeFreeBlock (ba : ByteArena) (target : Nat) : ByteArena :=
  match removeWalk ba.mem target (ba.size + 1) 0 ba.firstFree with
  | none => ba
  | some prev =>
    let tNext := nextPtr ba.mem target
    let m1 := if prev = 0 then ba.mem else store64 ba.mem (prev + HDR) tNext
    let ff1 := if prev = 0 then tNext else ba.firstFree
    { ba with mem := store64 m1 (target + HDR) 0, firstFree := ff1 }

/-- Translation of `Arena::coalesceForward`: probe the header right past the
block; if it is inside the region, carries `MAGIC` and is free, splice it out
and grow this block, rewriting the combined footer. -/
def coalesceForward (blk : Nat) (ba : ByteArena) : ByteArena :=
  let nxt := blk + hdrTotal ba.mem blk
  if BASE + ba.size ≤ nxt then ba
  else if hdrMagic ba.mem nxt = MAGIC ∧ hdrFreeByte ba.mem nxt ≠ 0 then
    let ba1 := removeFreeBlock ba nxt
    let newTotal := hdrTotal ba1.mem blk + hdrTotal ba1.mem nxt
    let m2 := store64 ba1.mem (blk + 8) newTotal
    let m3 := writeFtr m2 (blk + newTotal - FTR) MAGIC newTotal true
    { ba1 with mem := m3 }
  else ba

/-- Translation of `Arena::coalesceBackward`: probe the footer immediately
before the block (skipped at the region base); on `MAGIC` and free, locate
the predecessor header through `foot->totalSize`, splice both blocks out,
merge into the predecessor and push it onto the free-list head. -/
def coalesceBackward (blk : Nat) (ba : ByteArena) : ByteArena :=
  if blk = BASE then ba
  else
    let footAddr := blk - FTR
    if footAddr < BASE then ba
    else if ftrMagic ba.mem footAddr = MAGIC ∧ ftrFreeByte ba.mem footAddr ≠ 0 then
      let prevSz := ftrTotal ba.mem footAddr
      let prevAddr := blk - prevSz
      if hdrMagic ba.mem prevAddr = MAGIC ∧ hdrFreeByte ba.mem prevAddr ≠ 0 then
        let ba1 := removeFreeBlock ba blk
        let ba2 := removeFreeBlock ba1 prevAddr
        let newTotal := hdrTotal ba2.mem prevAddr + hdrTotal ba2.mem blk
        let m2 := store64 ba2.mem (prevAddr + 8) newTotal
        let m3 := writeFtr m2 (prevAddr + newTotal - FTR) MAGIC newTotal true
        let m4 := store64 m3 (prevAddr + HDR) ba2.firstFree
        { ba2 with mem := m4, firstFree := prevAddr }
      else ba
    else ba

/-- Translation of `Arena::deallocate(userPtr, stats)`.  Null is ignored;
otherwise one free call is counted, the header is recovered at
`ptr - sizeof(BlockHeader)` (the source does not subtract the alignment
padding), validated on `magic` and `isFree`, marked free in the header only
(the footer is not written), accounted, pushed onto the free-list head and
coalesced forward then backward. -/
def arenaDeallocate (ptr : Nat) (ba : ByteArena) (stats : AllocStats) :
    ByteArena × AllocStats :=
  if ptr = 0 then (ba, stats)
  else
    let stats0 := { stats with totalFreeCalls := wadd stats.totalFreeCalls 1 }
    let start := ptr - HDR
    if hdrMagic ba.mem start ≠ MAGIC ∨ hdrFreeByte ba.mem start ≠ 0 then (ba, stats0)
    else
      let m1 := store8 ba.mem (start + 24) 1
      let sz := hdrTotal ba.mem start
      let stats1 := { stats0 with currentUsedBytes := wsub stats0.currentUsedBytes sz }
      let m2 := store64 m1 (start + HDR) ba.firstFree
      let ba1 := { ba with mem := m2, firstFree := start, usedBytes := wsub ba.usedBytes sz }
      let ba2 := coalesceForward start ba1
      (coalesceBackward start ba2, stats1)

/-- Per-thread facade state reached by `FancyPerThreadAllocator::deallocate`:
the thread's arena, the bin heads of its small cache (addresses of
`SmallFreeBlock` nodes, 0 for null), and the shared statistics. -/
structure FacadeState where
  arena : ByteArena
  smallBins : List (List Nat)
  stats : AllocStats

/-- Byte-level `ThreadLocalSmallCache::freeSmall`: the header is read 16
bytes before the user pointer, `binIndex` goes through the `(int)` cast
(wrap modulo 2^32; values at or past 2^31 come out negative and fail the
range check together with everything at or past the bin count), and a valid
block is pushed onto its bin with its `next` field written into memory. -/
def freeSmallBytes (ptr : Nat) (fs : FacadeState) : FacadeState :=
  if ptr = 0 then fs
  else
    let blockStart := ptr - 16
    let bin := load64 fs.arena.mem blockStart % 2 ^ 32
    if bin < SMALL_BIN_COUNT then
      let totalSz := 16 + SMALL_BIN_SIZE.getD bin 0
      let stats1 := { fs.stats with
        totalFreeCalls := wadd fs.stats.totalFreeCalls 1,
        currentUsedBytes := wsub fs.stats.currentUsedBytes totalSz }
      let head := (fs.smallBins.getD bin []).headD 0
      let m1 := store64 fs.arena.mem (blockStart + 16) head
      { arena := { fs.arena with mem := m1 },
        smallBins := fs.smallBins.set bin (blockStart :: fs.smallBins.getD bin []),
        stats := stats1 }
    else fs

/-- Translation of `FancyPerThreadAllocator::deallocate`: null is a no-op;
otherwise the 4 bytes immediately preceding the user pointer are read as a
32-bit word and the free is routed to the arena exactly when they equal
`Arena::MAGIC`, and to the thread's small cache otherwise. -/
def dispatchFree (ptr : Nat) (fs : FacadeState) : FacadeState :=
  if ptr = 0 then fs
  else if load32 fs.arena.mem (ptr - 4) = MAGIC then
    let r := arenaDeallocate ptr fs.arena fs.stats
    { fs with arena := r.1, stats := r.2 }
  else freeSmallBytes ptr fs

/-- The arena-path run behind C1 and C5: a fresh thread's facade (arena of
1024 bytes, zero statistics) serving its first request `allocate(300)`, which
the dispatcher routes to the arena because 300 exceeds 256.  The arena picks
the spanning free block at `BASE`, splits it, and returns `BASE + 32`. -/
def run300a : Option Nat × ByteArena × AllocStats :=
  arenaAllocate 300 MAXALIGN (arenaInit 1024) AllocStats.zero

/-- Facade state of that thread right after the allocation. -/
def run300fs : FacadeState :=
  { arena := run300a.2.1, smallBins := [[], [], [], []], stats := run300a.2.2 }

/-- Second `allocate(300)` on the same arena: the free block left by the
first split starts at `BASE + 356`, whose payload area `BASE + 388` is not
16-aligned, so `std::align` inserts `padding = 12` and the user pointer is
`BASE + 356 + 32 + 12 = BASE + 400`. -/
def run300b : Option Nat × ByteArena × AllocStats :=
  arenaAllocate 300 MAXALIGN run300a.2.1 run300a.2.2

/-- C1: the claim says the free of every arena-path pointer is routed back to
`Arena::deallocate` because the 4 bytes before the pointer hold `ARENA_MAGIC`.
Evaluating the code at the failing input `deallocate(allocate(300))` on a
fresh thread: the word at `ptr - 4` is the header's tail padding (zero, not
the magic field, which sits at `ptr - 32`), so the dispatcher routes the free
to the small cache, which drops it (bin index 300 is out of range); the
statistics and the arena are untouched and the block stays allocated. -/
theorem c1_arena_pointer_misrouted :
    run300a.1 = some (BASE + HDR) ∧
    hdrMagic run300fs.arena.mem BASE = MAGIC ∧
    load32 run300fs.arena.mem (BASE + HDR - 4) = 0 ∧
    load32 run300fs.arena.mem (BASE + HDR - 4) ≠ MAGIC ∧
    load64 run300fs.arena.mem (BASE + HDR - 16) = 300 ∧
    (dispatchFree (BASE + HDR) run300fs).stats = run300fs.stats ∧
    (dispatchFree (BASE + HDR) run300fs).stats.totalFreeCalls = 0 ∧
    (dispatchFree (BASE + HDR) run300fs).stats.currentUsedBytes = 356 ∧
    hdrFreeByte (dispatchFree (BASE + HDR) run300fs).arena.mem BASE = 0 := by
  decide

/-- C5: the claim says `Arena::deallocate` locates the header at
`ptr - sizeof(header) - padding` and frees the exact block that `allocate`
chose.  Evaluating the code at the failing input (second `allocate(300)`,
which gets `padding = 12`): the code reads the header at `ptr - 32`, which is
12 bytes inside the real block's header at `BASE + 356`, the magic check
fails on the bytes found there, and the free is silently dropped — the block
stays allocated and `usedBytes` keeps both blocks. -/
theorem c5_padding_breaks_header_recovery :
    run300b.1 = some (BASE + 356 + HDR + 12) ∧
    hdrMagic run300b.2.1.mem (BASE + 356) = MAGIC ∧
    hdrFreeByte run300b.2.1.mem (BASE + 356) = 0 ∧
    BASE + 356 + HDR + 12 - HDR ≠ BASE + 356 ∧
    load32 run300b.2.1.mem (BASE + 356 + HDR + 12 - HDR) ≠ MAGIC ∧
    (arenaDeallocate (BASE + 356 + HDR + 12) run300b.2.1 run300b.2.2).1.usedBytes = 724 ∧
    hdrFreeByte (arenaDeallocate (BASE + 356 + HDR + 12) run300b.2.1 run300b.2.2).1.mem
      (BASE + 356) = 0 ∧
    (arenaDeallocate (BASE + 356 + HDR + 12) run300b.2.1 run300b.2.2).2.currentUsedBytes
      = 724 := by
  decide

/-- First step of the C3 and C4 run: `allocate(296)` twice on a fresh arena
of 1024 bytes.  Both requests need 352 bytes, so the blocks sit at `BASE` and
`BASE + 352` with no alignment padding, and a 320-byte free block remains at
`BASE + 704`. -/
def run296a : Option Nat × ByteArena × AllocStats :=
  arenaAllocate 296 MAXALIGN (arenaInit 1024) AllocStats.zero

/-- Second allocation of the C3 and C4 run. -/
def run296b : Option Nat × ByteArena × AllocStats :=
  arenaAllocate 296 MAXALIGN run296a.2.1 run296a.2.2

/-- Free of the first block (its forward neighbour is still allocated and it
sits at the region base, so no coalescing happens). -/
def run296free1 : ByteArena × AllocStats :=
  arenaDeallocate (BASE + HDR) run296b.2.1 run296b.2.2

/-- Free of the second block: it merges forward with the 320-byte tail, and
the backward probe then reads the first block's stale footer. -/
def run296free2 : ByteArena × AllocStats :=
  arenaDeallocate (BASE + 352 + HDR) run296free1.1 run296free1.2

/-- C4: the claim says `Arena::deallocate` sets `is_free = true` in both the
header and the footer.  Evaluating the code after freeing the first block:
its header says free but its footer (at `BASE + 352 - 24`, with valid magic
and matching `total_size`) still says allocated — the code never writes the
footer on the deallocate path. -/
theorem c4_footer_not_marked_free :
    run296a.1 = some (BASE + HDR) ∧
    hdrFreeByte run296free1.1.mem BASE = 1 ∧
    hdrTotal run296free1.1.mem BASE = 352 ∧
    ftrMagic run296free1.1.mem (BASE + 352 - FTR) = MAGIC ∧
    ftrTotal run296free1.1.mem (BASE + 352 - FTR) = 352 ∧
    ftrFreeByte run296free1.1.mem (BASE + 352 - FTR) = 0 := by
  decide

/-- C3: the claim says no two adjacent blocks are ever both free.  Evaluating
the code after `allocate(296)`, `allocate(296)`, `free(first)`, `free(second)`:
the second free merges forward only; its backward probe reads the first
block's stale footer (`is_free = false`), so the two blocks at `BASE`
(352 bytes) and `BASE + 352` (672 bytes) end up adjacent and both free. -/
theorem c3_adjacent_free_blocks_exist :
    run296b.1 = some (BASE + 352 + HDR) ∧
    hdrMagic run296free2.1.mem BASE = MAGIC ∧
    hdrFreeByte run296free2.1.mem BASE = 1 ∧
    hdrTotal run296free2.1.mem BASE = 352 ∧
    hdrMagic run296free2.1.mem (BASE + 352) = MAGIC ∧
    hdrFreeByte run296free2.1.mem (BASE + 352) = 1 ∧
    run296free2.1.usedBytes = 0 := by
  decide

/-- Small-cache reuse run behind C2 and C8: on one thread with empty cache
and zero statistics, `allocate(40)` provisions a fresh 80-byte chunk
(16-byte header plus the 64-byte bin), which is freed, allocated again (a
cache hit that touches no statistics) and freed again. -/
def reuse1 : Option Nat × SmallState × AllocStats :=
  allocateSmall 40 SmallState.empty AllocStats.zero

/-- First free of the reuse run. -/
def reuse2 : SmallState × AllocStats :=
  freeSmall 0 reuse1.2.1 reuse1.2.2

/-- Second allocation of the reuse run: pops the cached block. -/
def reuse3 : Option Nat × SmallState × AllocStats :=
  allocateSmall 40 reuse2.1 reuse2.2

/-- Second free of the reuse run. -/
def reuse4 : SmallState × AllocStats :=
  freeSmall 0 reuse3.2.1 reuse3.2.2

/-- C2: the claim says any sequence in which every returned pointer is freed
exactly once ends with `current_used_bytes = 0`, in particular when a
small-cache bin is reused.  Evaluating the code at the failing input
`allocate(40); free; allocate(40); free`: the cache-hit allocation adds
nothing to the gauge but its free still subtracts the 80-byte chunk, so the
unsigned counter underflows to `2^64 - 80` instead of 0. -/
theorem c2_small_reuse_roundtrip_nonzero :
    reuse1.1 = some 0 ∧
    reuse3.1 = some 0 ∧
    reuse4.2.totalAllocCalls = 1 ∧
    reuse4.2.totalFreeCalls = 2 ∧
    reuse4.2.currentUsedBytes = WORD - 80 ∧
    reuse4.2.currentUsedBytes ≠ 0 := by
  decide

/-- C6 counterexample: freeing a pointer whose block is already marked free
(a double free) is dropped without touching the block, but the code has
already counted the free call, so `total_free_calls` changes from 0 to 1,
against the claim that it is unchanged. -/
theorem c6_invalid_free_bumps_free_calls :
    hdrFreeByte (arenaInit 1024).mem BASE ≠ 0 ∧
    (arenaDeallocate (BASE + HDR) (arenaInit 1024) AllocStats.zero).2.currentUsedBytes = 0 ∧
    (arenaDeallocate (BASE + HDR) (arenaInit 1024) AllocStats.zero).2.totalFreeCalls = 1 ∧
    (arenaDeallocate (BASE + HDR) (arenaInit 1024) AllocStats.zero).2.totalFreeCalls ≠
      AllocStats.zero.totalFreeCalls := by
  decide

/-- C7 counterexample: `allocate(100)` on an arena of 128 bytes fails (the
spanning block cannot hold 100 + 56 bytes), yet `total_alloc_calls` changes
from 0 to 1 because the call is counted on entry, against the claim that all
statistics counters are unchanged after a failed allocation. -/
theorem c7_failed_alloc_bumps_alloc_calls :
    (arenaAllocate 100 MAXALIGN (arenaInit 128) AllocStats.zero).1 = none ∧
    (arenaAllocate 100 MAXALIGN (arenaInit 128) AllocStats.zero).2.2.totalAllocCalls = 1 ∧
    (arenaAllocate 100 MAXALIGN (arenaInit 128) AllocStats.zero).2.2.totalAllocCalls ≠
      AllocStats.zero.totalAllocCalls := by
  decide

/-- C8 counterexample: after the small-cache reuse run the gauge has
underflowed, so `current_used_bytes` exceeds `peak_used_bytes`, against the
claim that `peak ≥ current` after each individual update, in particular
after frees of reused small-cache blocks. -/
theorem c8_current_exceeds_peak :
    reuse4.2.peakUsedBytes = 80 ∧
    reuse4.2.currentUsedBytes = WORD - 80 ∧
    reuse4.2.peakUsedBytes < reuse4.2.currentUsedBytes := by
  decide

/-- C7 amended: when `Arena::allocate` returns null, the arena (region bytes,
free list, `usedBytes`) is exactly as before the call, and the statistics are
unchanged except for `total_alloc_calls`, which was counted on entry and is
one higher. -/
theorem c7_failed_alloc_frame (req align : Nat) (ba : ByteArena) (stats : AllocStats)
    (h : (arenaAllocate req align ba stats).1 = none) :
    (arenaAllocate req align ba stats).2.1 = ba ∧
    (arenaAllocate req align ba stats).2.2 =
      { stats with totalAllocCalls := wadd stats.totalAllocCalls 1 } := by
  unfold arenaAllocate at h ⊢
  cases hw : fitWalk ba.mem req align (ba.size + 1) 0 ba.firstFree with
  | none => simp [hw]
  | some x =>
    obtain ⟨p, c, pad⟩ := x
    rw [hw] at h
    simp only at h
    split at h <;> simp at h

/-- C7 witness: the failed allocation of 100 bytes from a 128-byte arena
leaves the arena untouched and only bumps the allocation-call counter. -/
theorem c7_failed_alloc_frame_witness :
    (arenaAllocate 100 MAXALIGN (arenaInit 128) AllocStats.zero).2.1 = arenaInit 128 ∧
    (arenaAllocate 100 MAXALIGN (arenaInit 128) AllocStats.zero).2.2 =
      { AllocStats.zero with totalAllocCalls := wadd AllocStats.zero.totalAllocCalls 1 } :=
  c7_failed_alloc_frame 100 MAXALIGN (arenaInit 128) AllocStats.zero (by decide)

/-- C6 amended: an invalid free is silently dropped without mutating any
allocator structure and without touching `current_used_bytes`, but the arena
path has already counted the free call on entry, so there
`total_free_calls` is one higher; the small-cache path returns before its
statistics updates, so there both counters are unchanged. -/
theorem c6_invalid_free_silent (ba : ByteArena) (stats : AllocStats) (ptr : Nat)
    (st : SmallState) (sstats : AllocStats) (sptr : Nat) (hdr : SmallHdr)
    (fs : FacadeState) (bptr : Nat) :
    (ptr ≠ 0 →
      hdrMagic ba.mem (ptr - HDR) ≠ MAGIC ∨ hdrFreeByte ba.mem (ptr - HDR) ≠ 0 →
      (arenaDeallocate ptr ba stats).1 = ba ∧
      (arenaDeallocate ptr ba stats).2 =
        { stats with totalFreeCalls := wadd stats.totalFreeCalls 1 }) ∧
    (st.heap.lookup sptr = some hdr → ¬ hdr.binIndex < SMALL_BIN_COUNT →
      freeSmall sptr st sstats = (st, sstats)) ∧
    (bptr ≠ 0 → ¬ load64 fs.arena.mem (bptr - 16) % 2 ^ 32 < SMALL_BIN_COUNT →
      freeSmallBytes bptr fs = fs) := by
  refine ⟨?_, ?_, ?_⟩
  · intro h1 h2
    unfold arenaDeallocate
    rw [if_neg h1, if_pos h2]
    exact ⟨rfl, rfl⟩
  · intro h1 h2
    unfold freeSmall
    rw [h1]
    simp [h2]
  · intro h1 h2
    unfold freeSmallBytes
    rw [if_neg h1, if_neg h2]

/-- Foreign-header state used by the C6 witness: the cache knows one chunk
whose header carries the out-of-range bin index 300 (the bytes an arena
block presents when a free is misrouted). -/
def badCache : SmallState :=
  { heap := [(5, ⟨300, 7⟩)], bins := [[], [], [], []], nextId := 0 }

/-- Facade state used by the C6 witness: a fresh 1024-byte arena whose only
block is still free. -/
def freshFacade : FacadeState :=
  { arena := arenaInit 1024, smallBins := [[], [], [], []], stats := AllocStats.zero }

/-- C6 witness: the three invalid frees evaluated on concrete states — a
double free of the arena's spanning block, a small free with bin index 300,
and a byte-level small free reading bin index `totalSize = 1024` from the
arena header's aliased bytes. -/
theorem c6_invalid_free_silent_witness :
    ((arenaDeallocate (BASE + HDR) (arenaInit 1024) AllocStats.zero).1 = arenaInit 1024 ∧
     (arenaDeallocate (BASE + HDR) (arenaInit 1024) AllocStats.zero).2 =
       { AllocStats.zero with totalFreeCalls := wadd AllocStats.zero.totalFreeCalls 1 }) ∧
    freeSmall 5 badCache AllocStats.zero = (badCache, AllocStats.zero) ∧
    freeSmallBytes (BASE + 24) freshFacade = freshFacade :=
  have h := c6_invalid_free_silent (arenaInit 1024) AllocStats.zero (BASE + HDR)
    badCache AllocStats.zero 5 ⟨300, 7⟩ freshFacade (BASE + 24)
  ⟨h.1 (by decide) (by decide), h.2.1 (by decide) (by decide), h.2.2 (by decide) (by decide)⟩

/-- One allocator operation: an arena allocation or free, or a small-cache
allocation or free, as issued by the facade on some thread. -/
inductive AllocOp where
  | arenaAlloc (req align : Nat)
  | arenaFree (ptr : Nat)
  | smallAlloc (req : Nat)
  | smallFree (ptr : Nat)

/-- Combined state seen by a sequence of allocator operations: one arena,
one small cache and the process-wide statistics. -/
structure SysState where
  arena : ByteArena
  cache : SmallState
  stats : AllocStats

/-- Effect of one allocator operation on the combined state. -/
def stepOp (op : AllocOp) (s : SysState) : SysState :=
  match op with
  | .arenaAlloc req align =>
      let r := arenaAllocate req align s.arena s.stats
      { s with arena := r.2.1, stats := r.2.2 }
  | .arenaFree ptr =>
      let r := arenaDeallocate ptr s.arena s.stats
      { s with arena := r.1, stats := r.2 }
  | .smallAlloc req =>
      let r := allocateSmall req s.cache s.stats
      { s with cache := r.2.1, stats := r.2.2 }
  | .smallFree ptr =>
      let r := freeSmall ptr s.cache s.stats
      { s with cache := r.1, stats := r.2 }

/-- A `fetch_add(1)` that does not wrap does not decrease the counter. -/
theorem wadd_one_ge (a : Nat) (h : a + 1 < WORD) : a ≤ wadd a 1 := by
  unfold wadd
  rw [Nat.mod_eq_of_lt h]
  omega

/-- The peak CAS loop never lowers the peak. -/
theorem peakUpdate_peak_le (s : AllocStats) :
    s.peakUsedBytes ≤ (peakUpdate s).peakUsedBytes := by
  unfold peakUpdate
  split
  · exact Nat.le_of_lt (by assumption)
  · exact le_refl _

/-- The peak CAS loop leaves the allocation-call counter alone. -/
theorem peakUpdate_allocCalls (s : AllocStats) :
    (peakUpdate s).totalAllocCalls = s.totalAllocCalls := by
  unfold peakUpdate
  split <;> rfl

/-- The peak CAS loop leaves the free-call counter alone. -/
theorem peakUpdate_freeCalls (s : AllocStats) :
    (peakUpdate s).totalFreeCalls = s.totalFreeCalls := by
  unfold peakUpdate
  split <;> rfl

/-- After the peak CAS loop the peak dominates the current gauge. -/
theorem peakUpdate_ge_current (s : AllocStats) :
    s.currentUsedBytes ≤ (peakUpdate s).peakUsedBytes := by
  unfold peakUpdate
  split
  · exact le_refl _
  · exact Nat.le_of_not_lt (by assumption)

/-- Statistics effect of `Arena::allocate`: either only the allocation-call
counter moves (failure), or the call counter moves, the gauge is rewritten
and the peak CAS loop runs. -/
theorem arenaAllocate_stats_shape (req align : Nat) (ba : ByteArena) (stats : AllocStats) :
    (arenaAllocate req align ba stats).2.2 =
      { stats with totalAllocCalls := wadd stats.totalAllocCalls 1 } ∨
    ∃ n, (arenaAllocate req align ba stats).2.2 =
      peakUpdate { stats with totalAllocCalls := wadd stats.totalAllocCalls 1,
                              currentUsedBytes := n } := by
  unfold arenaAllocate
  cases fitWalk ba.mem req align (ba.size + 1) 0 ba.firstFree with
  | none => left; rfl
  | some x =>
      obtain ⟨p, c, pad⟩ := x
      right
      dsimp only
      split
      · exact ⟨_, rfl⟩
      · exact ⟨_, rfl⟩

/-- Statistics effect of `allocateSmall`: a cache hit touches nothing; a
fresh chunk moves the call counter and the gauge and runs the peak loop. -/
theorem allocateSmall_stats_shape (req : Nat) (st : SmallState) (stats : AllocStats) :
    (allocateSmall req st stats).2.2 = stats ∨
    ∃ n, (allocateSmall req st stats).2.2 =
      peakUpdate { stats with totalAllocCalls := wadd stats.totalAllocCalls 1,
                              currentUsedBytes := n } := by
  unfold allocateSmall
  cases findBin req with
  | none => left; rfl
  | some bin =>
      dsimp only
      cases st.bins.getD bin [] with
      | cons b r => left; rfl
      | nil => right; exact ⟨_, rfl⟩

/-- Statistics effect of `Arena::deallocate`: null touches nothing; any other
pointer moves the free-call counter and possibly the gauge, never the peak. -/
theorem arenaDeallocate_stats_shape (ptr : Nat) (ba : ByteArena) (stats : AllocStats) :
    (arenaDeallocate ptr ba stats).2 = stats ∨
    ∃ n, (arenaDeallocate ptr ba stats).2 =
      { stats with totalFreeCalls := wadd stats.totalFreeCalls 1,
                   currentUsedBytes := n } := by
  unfold arenaDeallocate
  by_cases h0 : ptr = 0
  · rw [if_pos h0]; left; rfl
  · rw [if_neg h0]
    by_cases hv : hdrMagic ba.mem (ptr - HDR) ≠ MAGIC ∨ hdrFreeByte ba.mem (ptr - HDR) ≠ 0
    · rw [if_pos hv]; right; exact ⟨_, rfl⟩
    · rw [if_neg hv]; right; exact ⟨_, rfl⟩

/-- Statistics effect of `freeSmall`: an unknown or out-of-range header
touches nothing; a valid free moves the free-call counter and the gauge. -/
theorem freeSmall_stats_shape (ptr : Nat) (st : SmallState) (stats : AllocStats) :
    (freeSmall ptr st stats).2 = stats ∨
    ∃ n, (freeSmall ptr st stats).2 =
      { stats with totalFreeCalls := wadd stats.totalFreeCalls 1,
                   currentUsedBytes := n } := by
  unfold freeSmall
  cases st.heap.lookup ptr with
  | none => left; rfl
  | some hdr =>
      dsimp only
      split
      · right; exact ⟨_, rfl⟩
      · left; rfl

/-- C8 amended: over any single allocator operation, `peak_used_bytes`,
`total_alloc_calls` and `total_free_calls` are nondecreasing (the two call
counters under the physical side condition that a 64-bit `fetch_add` does
not wrap), and every run of the peak CAS loop re-establishes
`peak ≥ current`; the original claim fails only in that a free of a reused
small-cache block can underflow `current_used_bytes` past the peak, as the
counterexample shows. -/
theorem c8_counters_monotone (op : AllocOp) (s : SysState)
    (ha : s.stats.totalAllocCalls + 1 < WORD) (hf : s.stats.totalFreeCalls + 1 < WORD) :
    (s.stats.peakUsedBytes ≤ (stepOp op s).stats.peakUsedBytes ∧
     s.stats.totalAllocCalls ≤ (stepOp op s).stats.totalAllocCalls ∧
     s.stats.totalFreeCalls ≤ (stepOp op s).stats.totalFreeCalls) ∧
    ∀ t : AllocStats, t.currentUsedBytes ≤ (peakUpdate t).peakUsedBytes := by
  have hwa : s.stats.totalAllocCalls ≤ wadd s.stats.totalAllocCalls 1 := wadd_one_ge _ ha
  have hwf : s.stats.totalFreeCalls ≤ wadd s.stats.totalFreeCalls 1 := wadd_one_ge _ hf
  refine ⟨?_, fun t => peakUpdate_ge_current t⟩
  cases op with
  | arenaAlloc req align =>
      simp only [stepOp]
      rcases arenaAllocate_stats_shape req align s.arena s.stats with h | ⟨n, h⟩ <;> rw [h]
      · exact ⟨le_refl _, hwa, le_refl _⟩
      · refine ⟨peakUpdate_peak_le
            { s.stats with totalAllocCalls := wadd s.stats.totalAllocCalls 1,
                           currentUsedBytes := n }, ?_, ?_⟩
        · rw [peakUpdate_allocCalls]; exact hwa
        · rw [peakUpdate_freeCalls]
  | arenaFree ptr =>
      simp only [stepOp]
      rcases arenaDeallocate_stats_shape ptr s.arena s.stats with h | ⟨n, h⟩ <;> rw [h]
      · exact ⟨le_refl _, le_refl _, le_refl _⟩
      · exact ⟨le_refl _, le_refl _, hwf⟩
  | smallAlloc req =>
      simp only [stepOp]
      rcases allocateSmall_stats_shape req s.cache s.stats with h | ⟨n, h⟩ <;> rw [h]
      · exact ⟨le_refl _, le_refl _, le_refl _⟩
      · refine ⟨peakUpdate_peak_le
            { s.stats with totalAllocCalls := wadd s.stats.totalAllocCalls 1,
                           currentUsedBytes := n }, ?_, ?_⟩
        · rw [peakUpdate_allocCalls]; exact hwa
        · rw [peakUpdate_freeCalls]
  | smallFree ptr =>
      simp only [stepOp]
      rcases freeSmall_stats_shape ptr s.cache s.stats with h | ⟨n, h⟩ <;> rw [h]
      · exact ⟨le_refl _, le_refl _, le_refl _⟩
      · exact ⟨le_refl _, le_refl _, hwf⟩

/-- C8 witness: the monotonicity instance for a small allocation on a fresh
system state with zero counters. -/
theorem c8_counters_monotone_witness :
    let s0 : SysState :=
      { arena := arenaInit 1024, cache := SmallState.empty, stats := AllocStats.zero }
    (s0.stats.peakUsedBytes ≤ (stepOp (AllocOp.smallAlloc 10) s0).stats.peakUsedBytes ∧
     s0.stats.totalAllocCalls ≤ (stepOp (AllocOp.smallAlloc 10) s0).stats.totalAllocCalls ∧
     s0.stats.totalFreeCalls ≤ (stepOp (AllocOp.smallAlloc 10) s0).stats.totalFreeCalls) ∧
    ∀ t : AllocStats, t.currentUsedBytes ≤ (peakUpdate t).peakUsedBytes :=
  c8_counters_monotone (AllocOp.smallAlloc 10)
    { arena := arenaInit 1024, cache := SmallState.empty, stats := AllocStats.zero }
    (by decide) (by decide)

/-- Lookup after the pop path's `userSize` write: every identifier still maps
to a header with the same `binIndex`; only the written block's `userSize`
changes. -/
theorem lookup_setUserSize (l : List (Nat × SmallHdr)) (j r id : Nat) :
    (setUserSize l j r).lookup id =
      (l.lookup id).map (fun h => if id = j then { h with userSize := r } else h) := by
  induction l with
  | nil => rfl
  | cons p t ih =>
      obtain ⟨k, v⟩ := p
      simp only [setUserSize, List.map_cons] at ih ⊢
      by_cases hk : k = j
      · by_cases hid : id = k
        · subst hk
          subst hid
          simp [List.lookup_cons]
        · subst hk
          simp [List.lookup_cons, hid, beq_false_of_ne hid, ih]
      · by_cases hid : id = k
        · subst hid
          simp [List.lookup_cons, hk, ih]
        · simp [List.lookup_cons, hk, beq_false_of_ne hid, ih]

/-- C9: `bin_index` is written exactly once, when the chunk is provisioned
(then it equals the bin `findBin` chose for the request); the pop path of
`allocateSmall` rewrites only `user_size`, `freeSmall` writes only the
free-list link, so every block's `bin_index` survives every later operation,
and `freeSmall` pushes a block onto exactly the bin its header names — the
bin it was created for. -/
theorem c9_bin_index_stable (st : SmallState) (stats : AllocStats) (req ptr id : Nat)
    (hdr h0 : SmallHdr) :
    (st.heap.lookup id = some h0 → st.heap.lookup st.nextId = none →
      ∃ u, (allocateSmall req st stats).2.1.heap.lookup id = some ⟨h0.binIndex, u⟩) ∧
    (∀ bin, findBin req = some bin → st.bins.getD bin [] = [] →
      (allocateSmall req st stats).1 = some st.nextId ∧
      (allocateSmall req st stats).2.1.heap.lookup st.nextId = some ⟨bin, req⟩) ∧
    ((freeSmall ptr st stats).1.heap = st.heap) ∧
    (st.heap.lookup ptr = some hdr → hdr.binIndex < SMALL_BIN_COUNT →
      (freeSmall ptr st stats).1.bins =
        st.bins.set hdr.binIndex (ptr :: st.bins.getD hdr.binIndex [])) := by
  refine ⟨?_, ?_, ?_, ?_⟩
  · intro hl hfresh
    unfold allocateSmall
    cases hb : findBin req with
    | none => exact ⟨h0.userSize, hl⟩
    | some bin =>
      dsimp only
      cases hbin : st.bins.getD bin [] with
      | cons blk rest =>
          dsimp only
          rw [lookup_setUserSize, hl]
          by_cases hid : id = blk
          · exact ⟨req, by simp [hid]⟩
          · exact ⟨h0.userSize, by simp [hid]⟩
      | nil =>
          dsimp only
          have hne : (id == st.nextId) = false := by
            cases h : id == st.nextId with
            | false => rfl
            | true =>
                rw [eq_of_beq h, hfresh] at hl
                cases hl
          refine ⟨h0.userSize, ?_⟩
          rw [List.lookup_cons, hne]
          exact hl
  · intro bin hb hbin
    unfold allocateSmall
    rw [hb]
    dsimp only
    rw [hbin]
    exact ⟨rfl, by rw [List.lookup_cons]; simp⟩
  · unfold freeSmall
    cases st.heap.lookup ptr with
    | none => rfl
    | some h1 =>
        dsimp only
        split
        · rfl
        · rfl
  · intro h1 h2
    unfold freeSmall
    rw [h1]
    simp [h2]

/-- Cache state for the C9 witness: one chunk (identifier 0) created for bin
1, currently cached in bin 1, with the next fresh identifier being 1. -/
def cacheW : SmallState :=
  { heap := [(0, ⟨1, 40⟩)], bins := [[], [], [], []], nextId := 1 }

/-- C9 witness: the stability instance on `cacheW` for a request of 40 bytes
(bin 1): the existing block keeps `bin_index = 1` across an allocation, the
fresh chunk is created with `bin_index = 1`, and freeing block 0 leaves the
heap alone and pushes it onto bin 1. -/
theorem c9_bin_index_stable_witness :
    (∃ u, (allocateSmall 40 cacheW AllocStats.zero).2.1.heap.lookup 0 = some ⟨1, u⟩) ∧
    ((allocateSmall 40 cacheW AllocStats.zero).1 = some cacheW.nextId ∧
     (allocateSmall 40 cacheW AllocStats.zero).2.1.heap.lookup cacheW.nextId =
       some ⟨1, 40⟩) ∧
    (freeSmall 0 cacheW AllocStats.zero).1.heap = cacheW.heap ∧
    (freeSmall 0 cacheW AllocStats.zero).1.bins =
      cacheW.bins.set 1 (0 :: cacheW.bins.getD 1 []) :=
  have h := c9_bin_index_stable cacheW AllocStats.zero 40 0 0 ⟨1, 40⟩ ⟨1, 40⟩
  ⟨h.1 (by decide) (by decide), h.2.1 1 (by decide) (by decide),
   h.2.2.1, h.2.2.2 (by decide) (by decide)⟩

/-- Boundary-tag tiling: the (header address, total size) pairs of `bs`
partition the region from `cur` up to `endA` contiguously, every block at
least `overhead = sizeof(header) + sizeof(footer)` bytes — the block
structure the arena maintains in every reachable state. -/
def tilesFrom (endA : Nat) : Nat → List (Nat × Nat) → Bool
  | cur, [] => cur == endA
  | cur, (off, sz) :: rest =>
      off == cur && decide (OVERHEAD ≤ sz) && tilesFrom endA (cur + sz) rest

/-- A tiling never extends past the end of the region. -/
theorem tilesFrom_le (endA : Nat) :
    ∀ cur bs, tilesFrom endA cur bs = true → cur ≤ endA := by
  intro cur bs
  induction bs generalizing cur with
  | nil =>
      intro h
      simp only [tilesFrom, beq_iff_eq] at h
      omega
  | cons p rest ih =>
      obtain ⟨off, sz⟩ := p
      intro h
      simp only [tilesFrom, Bool.and_eq_true, beq_iff_eq, decide_eq_true_eq] at h
      obtain ⟨⟨h1, h2⟩, h3⟩ := h
      have := ih (cur + sz) h3
      omega

/-- Every block of a tiling starts inside the region, is at least `overhead`
bytes, ends inside the region, has a successor block starting exactly at its
end unless it ends the region, and starts at least `overhead` bytes past the
tiling origin unless it is the first block. -/
theorem tilesFrom_mem (endA : Nat) :
    ∀ cur bs, tilesFrom endA cur bs = true →
      ∀ off sz, (off, sz) ∈ bs →
        cur ≤ off ∧ OVERHEAD ≤ sz ∧ off + sz ≤ endA ∧
        (off + sz ≠ endA → ∃ q ∈ bs, q.1 = off + sz ∧ OVERHEAD ≤ q.2) ∧
        (off ≠ cur → cur + OVERHEAD ≤ off) := by
  intro cur bs
  induction bs generalizing cur with
  | nil =>
      intro h off sz hm
      cases hm
  | cons p rest ih =>
      obtain ⟨o1, s1⟩ := p
      intro h off sz hm
      simp only [tilesFrom, Bool.and_eq_true, beq_iff_eq, decide_eq_true_eq] at h
      obtain ⟨⟨ho, hs⟩, ht⟩ := h
      rcases List.mem_cons.mp hm with heq | hmem
      · injection heq with h5 h6
        subst h5
        subst h6
        subst ho
        have hrest := tilesFrom_le endA (off + sz) rest ht
        refine ⟨le_refl _, hs, hrest, ?_, ?_⟩
        · intro hne
          cases rest with
          | nil =>
              simp only [tilesFrom, beq_iff_eq] at ht
              omega
          | cons q qs =>
              obtain ⟨o2, s2⟩ := q
              simp only [tilesFrom, Bool.and_eq_true, beq_iff_eq, decide_eq_true_eq] at ht
              obtain ⟨⟨ho2, hs2⟩, _⟩ := ht
              refine ⟨(o2, s2), List.mem_cons_of_mem _ (List.mem_cons_self _ _), ?_, hs2⟩
              omega
        · intro hne
          exact absurd rfl hne
      · have hrec := ih (cur + s1) ht off sz hmem
        obtain ⟨ha, hb, hc, hd, _⟩ := hrec
        refine ⟨by omega, hb, hc, ?_, ?_⟩
        · intro hne
          obtain ⟨q, hq1, hq2⟩ := hd hne
          exact ⟨q, List.mem_cons_of_mem _ hq1, hq2⟩
        · intro _
          omega

/-- When the forward probe address reaches the end of the region,
`coalesceForward` returns without reading it. -/
theorem coalesceForward_skip (blk : Nat) (ba : ByteArena)
    (h : BASE + ba.size ≤ blk + hdrTotal ba.mem blk) : coalesceForward blk ba = ba := by
  unfold coalesceForward
  rw [if_pos h]

/-- When the freed block sits at the region base, `coalesceBackward` returns
without reading the footer probe. -/
theorem coalesceBackward_skip (blk : Nat) (ba : ByteArena) (h : blk = BASE) :
    coalesceBackward blk ba = ba := by
  unfold coalesceBackward
  rw [if_pos h]

/-- C10: in an arena whose blocks tile the region exactly, the neighbour
probes of the coalescing routines only touch the region: the forward header
probe at `blk + totalSize` is skipped (the function is the identity) exactly
when the freed block ends at the region's end, and otherwise lands on the
next block's header, wholly inside `BASE, BASE + size`; the backward footer
probe at `blk - sizeof(footer)` is skipped when the block starts at `BASE`,
and otherwise reads the predecessor's footer, wholly inside the region. -/
theorem c10_coalesce_probes_in_bounds (ba : ByteArena) (bs : List (Nat × Nat))
    (blk sz : Nat)
    (ht : tilesFrom (BASE + ba.size) BASE bs = true)
    (hm : (blk, sz) ∈ bs) (hc : hdrTotal ba.mem blk = sz) :
    (BASE + ba.size ≤ blk + hdrTotal ba.mem blk →
       blk + hdrTotal ba.mem blk = BASE + ba.size ∧ coalesceForward blk ba = ba) ∧
    (blk + hdrTotal ba.mem blk < BASE + ba.size →
       BASE ≤ blk + hdrTotal ba.mem blk ∧
       blk + hdrTotal ba.mem blk + HDR ≤ BASE + ba.size ∧
       ∃ q ∈ bs, q.1 = blk + hdrTotal ba.mem blk) ∧
    (blk = BASE → coalesceBackward blk ba = ba) ∧
    (blk ≠ BASE → BASE ≤ blk - FTR ∧ blk - FTR + FTR ≤ BASE + ba.size) := by
  obtain ⟨hcur, hovh, hend, hsucc, hgap⟩ :=
    tilesFrom_mem (BASE + ba.size) BASE bs ht blk sz hm
  have hH : HDR = 32 := rfl
  have hF : FTR = 24 := rfl
  have hO : OVERHEAD = 56 := rfl
  refine ⟨?_, ?_, fun hB => coalesceBackward_skip blk ba hB, ?_⟩
  · intro hskip
    refine ⟨?_, coalesceForward_skip blk ba hskip⟩
    rw [hc] at hskip ⊢
    omega
  · intro hlt
    rw [hc] at hlt ⊢
    have hne : blk + sz ≠ BASE + ba.size := by omega
    obtain ⟨q, hq1, hq2, hq3⟩ := hsucc hne
    have hqmem : (q.1, q.2) ∈ bs := by
      cases q
      exact hq1
    obtain ⟨_, _, hqend, _, _⟩ := tilesFrom_mem (BASE + ba.size) BASE bs ht q.1 q.2 hqmem
    refine ⟨by omega, by omega, ⟨q, hq1, hq2⟩⟩
  · intro hne
    have := hgap hne
    constructor
    · omega
    · omega

/-- C10 witness: the probe bounds instantiated on the final state of the
coalescing run, whose two blocks (352 and 672 bytes) tile the 1024-byte
region, at the block sitting at the region base: its forward probe lands on
the second block's header inside the region, and its backward probe is
skipped. -/
theorem c10_coalesce_probes_in_bounds_witness :
    (BASE + run296free2.1.size ≤ BASE + hdrTotal run296free2.1.mem BASE →
       BASE + hdrTotal run296free2.1.mem BASE = BASE + run296free2.1.size ∧
       coalesceForward BASE run296free2.1 = run296free2.1) ∧
    (BASE + hdrTotal run296free2.1.mem BASE < BASE + run296free2.1.size →
       BASE ≤ BASE + hdrTotal run296free2.1.mem BASE ∧
       BASE + hdrTotal run296free2.1.mem BASE + HDR ≤ BASE + run296free2.1.size ∧
       ∃ q ∈ [(BASE, 352), (BASE + 352, 672)], q.1 = BASE + hdrTotal run296free2.1.mem BASE) ∧
    (BASE = BASE → coalesceBackward BASE run296free2.1 = run296free2.1) ∧
    (BASE ≠ BASE → BASE ≤ BASE - FTR ∧ BASE - FTR + FTR ≤ BASE + run296free2.1.size) :=
  c10_coalesce_probes_in_bounds run296free2.1 [(BASE, 352), (BASE + 352, 672)] BASE 352
    (by decide) (by decide) (by decide)
